import Mathlib

/-!
Verification of the movie-browsing component in `src/App.tsx`:
the derivation pipeline (search filtering, runtime formatting, multi-key
sorting) and the fetch lifecycle (loading / error / ready).

JavaScript strings are modelled as Lean `String`, JS arrays as `List`,
and `Array.prototype.sort` (a stable comparator sort per ES2019) as
`List.mergeSort` over the boolean relation "comparator result is not
positive".  `parseInt` is modelled as `Option Int`, with `none` playing
the role of `NaN`; where the code subtracts possibly-NaN parse results
inside a sort comparator the model defaults `NaN` to `0`, matching the
engines' treatment of a NaN comparator result as "equal" (the spec
declares this case unspecified).  Locale-aware string comparison
(`localeCompare`) is modelled as comparison in the code-point order on
`String`; the claims under verification depend only on it being a total
order.
-/

namespace MovieApp

/-- Movie record as in `App.tsx` lines 4-9. -/
structure Movie where
  Title : String
  Year : String
  Runtime : String
  Poster : Option String := none
deriving DecidableEq

/-- Filter configuration as in `App.tsx` lines 11-14.  `sortBy` is kept as a
raw string, as in the source, where a string is stored via an `as any` cast;
the sort dispatches on equality with "Year" and "Runtime" and falls through
to the Title comparator otherwise, exactly as the code does. -/
structure FilterOptions where
  searchTerm : String
  sortBy : String
deriving DecidableEq

/-- Whether `needle` occurs as a contiguous sublist of the second argument. -/
def containsList (needle : List Char) : List Char → Bool
  | [] => needle.isEmpty
  | c :: t => needle.isPrefixOf (c :: t) || containsList needle t

/-- JS `hay.includes(needle)`: substring containment. -/
def includes (hay needle : String) : Bool :=
  containsList needle.toList hay.toList

/-- JS `s.toLowerCase()`, modelled as the per-character lowercase mapping
on the string's characters. -/
def toLowerCase (s : String) : String := ⟨s.toList.map Char.toLower⟩

/-- Numeric value of a decimal digit character. -/
def digitVal (c : Char) : Nat := c.toNat - '0'.toNat

/-- JS `parseInt(s)` in base 10: skip leading whitespace, read an optional
sign, then the longest run of leading decimal digits.  `none` models `NaN`
(no digit found).  The hexadecimal `0x`/`0X` prefix form of JS `parseInt`
is not modelled; the claims quantify over decimal-integer strings only. -/
def jsParseInt (s : String) : Option Int :=
  let cs := s.toList.dropWhile fun c => c.isWhitespace
  let signed : Int × List Char :=
    match cs with
    | '-' :: t => (-1, t)
    | '+' :: t => (1, t)
    | _ => (1, cs)
  let ds := signed.2.takeWhile fun c => c.isDigit
  if ds.isEmpty then none
  else some (signed.1 * Int.ofNat (ds.foldl (fun acc c => acc * 10 + digitVal c) 0))

/-- Variant of `parseInt` with the `NaN` case defaulted to `0`; used only inside sort
comparators, where engines treat a `NaN` comparator value as "equal". -/
def parseIntD (s : String) : Int := (jsParseInt s).getD 0

/-- The function `getRuntime` from `App.tsx` lines 49-56: `parseInt` the runtime string,
split into hours (`Math.floor(minutes / 60)`, which is `Int.fdiv` on
integers) and remaining minutes (JS `%`, truncated remainder `Int.tmod`),
and format.  On a `NaN` parse the code renders "NaNm" (NaN hours fail the
`> 0` test). -/
def getRuntime (runtime : String) : String :=
  match jsParseInt runtime with
  | none => "NaNm"
  | some minutes =>
    let hours := Int.fdiv minutes 60
    let remainingMinutes := Int.tmod minutes 60
    if hours > 0 then toString hours ++ "h " ++ toString remainingMinutes ++ "m"
    else toString remainingMinutes ++ "m"

/-- JS `a.localeCompare(b)` modelled as the code-point order on `String`
(a total order; negative, zero or positive as in JS). -/
def localeCompare (a b : String) : Int :=
  if a < b then -1 else if b < a then 1 else 0

/-- The comparator passed to `.sort` in `App.tsx` lines 62-72. -/
def compareMovies (filters : FilterOptions) (a b : Movie) : Int :=
  if filters.sortBy = "Year" then parseIntD b.Year - parseIntD a.Year
  else if filters.sortBy = "Runtime" then parseIntD b.Runtime - parseIntD a.Runtime
  else localeCompare a.Title b.Title

/-- Relation "`a` need not come after `b`": the comparator result is not positive.
A stable sort with this relation is the ES2019 semantics of
`Array.prototype.sort` for a consistent comparator. -/
def sortLe (filters : FilterOptions) (a b : Movie) : Bool :=
  decide (compareMovies filters a b ≤ 0)

/-- The `.sort(...)` stage: stable sort by the movie comparator. -/
def sortMovies (filters : FilterOptions) (l : List Movie) : List Movie :=
  l.mergeSort (sortLe filters)

/-- The predicate of the `.filter(...)` stage in `App.tsx` lines 59-61:
`movie.Title.toLowerCase().includes(filters.searchTerm.toLowerCase())`. -/
def matchesSearch (filters : FilterOptions) (movie : Movie) : Bool :=
  includes (toLowerCase movie.Title) (toLowerCase filters.searchTerm)

/-- The derived list `filteredMovies` from `App.tsx` lines 58-72: filter by case-insensitive
substring match on the title, then sort by the selected key. -/
def filteredMovies (movies : List Movie) (filters : FilterOptions) : List Movie :=
  sortMovies filters (movies.filter fun movie => matchesSearch filters movie)

/-! ### Helper lemmas -/

theorem toString_ofNat (k : Nat) : toString (Int.ofNat k) = toString k := rfl

theorem fdiv_ofNat_sixty (m : Nat) :
    (Int.ofNat m).fdiv 60 = Int.ofNat (m / 60) := (Int.ofNat_fdiv m 60).symm

theorem tmod_ofNat_sixty (m : Nat) :
    (Int.ofNat m).tmod 60 = Int.ofNat (m % 60) := rfl

/-- Claim C2: for every Runtime string parsing to a non-negative decimal integer
`m`, `getRuntime` renders `floor (m / 60)` hours and `m % 60` minutes,
dropping the hour part when it is zero; in particular
`getRuntime "90" = "1h 30m"`, `getRuntime "45" = "45m"`,
`getRuntime "120" = "2h 0m"`. -/
theorem getRuntime_spec :
    (∀ (s : String) (m : Nat), jsParseInt s = some (Int.ofNat m) →
      getRuntime s = if 0 < m / 60
        then toString (m / 60) ++ "h " ++ toString (m % 60) ++ "m"
        else toString (m % 60) ++ "m") ∧
    getRuntime "90" = "1h 30m" ∧ getRuntime "45" = "45m" ∧
    getRuntime "120" = "2h 0m" := by
  refine ⟨?_, rfl, rfl, rfl⟩
  intro s m h
  unfold getRuntime
  rw [h]
  dsimp only
  rw [fdiv_ofNat_sixty, tmod_ofNat_sixty]
  by_cases h60 : 0 < m / 60
  · rw [if_pos (show Int.ofNat (m / 60) > 0 from Int.ofNat_pos.mpr h60), if_pos h60,
      toString_ofNat, toString_ofNat]
  · rw [if_neg (show ¬Int.ofNat (m / 60) > 0 from fun hcon => h60 (Int.ofNat_pos.mp hcon)),
      if_neg h60, toString_ofNat]

/-- Witness for `C2` at the concrete input "90". -/
theorem getRuntime_spec_witness :
    jsParseInt "90" = some (Int.ofNat 90) ∧
    getRuntime "90" = (if 0 < 90 / 60
      then toString (90 / 60) ++ "h " ++ toString (90 % 60) ++ "m"
      else toString (90 % 60) ++ "m") :=
  ⟨by decide, getRuntime_spec.1 "90" 90 (by decide)⟩

/-! ### Fetch lifecycle -/

/-- A JavaScript thrown value, as discriminated by `err instanceof Error`
in the catch clause: either an `Error` object carrying its `message`
string, or any other thrown value. -/
inductive Thrown where
  | errorVal (message : String)
  | nonError
deriving DecidableEq

/-- The possible outcomes of the single `fetch` attempt: an HTTP-ok
response whose body parses to a movie list, an HTTP-not-ok response, or a
rejection (network failure or JSON parse failure) carrying the thrown
value. -/
inductive FetchOutcome where
  | success (data : List Movie)
  | httpNotOk
  | rejected (err : Thrown)
deriving DecidableEq

/-- The component state: the four `useState` hooks of `App.tsx`
lines 17-23. -/
structure AppState where
  movies : List Movie
  isLoading : Bool
  error : Option String
  filters : FilterOptions
deriving DecidableEq

/-- Initial hook values: empty movie list, loading, no error, empty search,
sort by title. -/
def initialState : AppState :=
  { movies := [], isLoading := true, error := none,
    filters := { searchTerm := "", sortBy := "Title" } }

/-- The catch clause of `fetchMovies`:
`err instanceof Error ? err.message : 'An error occurred'`. -/
def catchMessage : Thrown → String
  | .errorVal message => message
  | .nonError => "An error occurred"

/-- The function `fetchMovies` from `App.tsx` lines 26-39, as a state transformer
indexed by the outcome of the attempt.  `setIsLoading true` runs first;
on an HTTP-not-ok response the code throws `new Error("Failed to fetch
movies")`, which the same catch clause turns into the error message; the
`finally` block sets `isLoading` to `false` on every path. -/
def fetchMovies (outcome : FetchOutcome) (s : AppState) : AppState :=
  let s1 := { s with isLoading := true }
  let s2 :=
    match outcome with
    | .success data => { s1 with movies := data }
    | .httpNotOk => { s1 with error := some (catchMessage (.errorVal "Failed to fetch movies")) }
    | .rejected err => { s1 with error := some (catchMessage err) }
  { s2 with isLoading := false }

/-- The TypeScript type `keyof FilterOptions` of the `key` argument of
`handleFilterChange`. -/
inductive FilterKey where
  | searchTerm
  | sortBy
deriving DecidableEq

/-- The function `handleFilterChange` from `App.tsx` lines 45-47: replace the named
field of the filter configuration, spreading the previous value
(`\x7b ...prev, [key]: value \x7d`). -/
def handleFilterChange (key : FilterKey) (value : String)
    (prev : FilterOptions) : FilterOptions :=
  match key with
  | .searchTerm => { prev with searchTerm := value }
  | .sortBy => { prev with sortBy := value }

/-- What the component renders, `App.tsx` lines 74-171: the loading screen
when `isLoading` is set, else the error screen when `error` is set, else
the grid over the derived view list. -/
inductive LifecycleView where
  | Loading
  | Error (message : String)
  | Ready (view : List Movie)
deriving DecidableEq

/-- The render branching of `App.tsx` lines 74-88.  The error screen is
gated by the JS truthiness check `if (error)`, under which both `null`
and the empty string are falsy: a state whose error variable holds the
empty string falls through to the movie grid. -/
def render (s : AppState) : LifecycleView :=
  if s.isLoading then .Loading
  else
    match s.error with
    | some message =>
      if message = "" then .Ready (filteredMovies s.movies s.filters)
      else .Error message
    | none => .Ready (filteredMovies s.movies s.filters)

/-- One event of the component: the fetch attempt resolving, or a user
edit of the search term or the sort key. -/
inductive Step : AppState → AppState → Prop where
  | fetch (outcome : FetchOutcome) (s : AppState) :
      Step s (fetchMovies outcome s)
  | filterChange (key : FilterKey) (value : String) (s : AppState) :
      Step s { s with filters := handleFilterChange key value s.filters }

/-- States reachable from the initial hook values. -/
inductive Reachable : AppState → Prop where
  | init : Reachable initialState
  | step {s s' : AppState} : Reachable s → Step s s' → Reachable s'

/-- Claim C5: an HTTP-not-ok response leaves the lifecycle in the Error state
with exactly the message "Failed to fetch movies", whatever the prior
state. -/
theorem httpNotOk_error (s : AppState) :
    (fetchMovies .httpNotOk s).error = some "Failed to fetch movies" ∧
    render (fetchMovies .httpNotOk s) = .Error "Failed to fetch movies" :=
  ⟨rfl, rfl⟩

/-- Counterexample to claim C6 as stated: a rejection throwing an Error
object whose message is the empty string sets the error variable to the
empty string, yet the rendered lifecycle is not the Error state — the
empty string is falsy in JS, so the `if (error)` gate falls through to
the movie grid. -/
theorem rejected_error_counterexample :
    (fetchMovies (.rejected (.errorVal "")) initialState).error = some "" ∧
    render (fetchMovies (.rejected (.errorVal "")) initialState) ≠ .Error "" := by
  refine ⟨rfl, ?_⟩
  simp [render, fetchMovies, catchMessage, initialState]

/-- Claim C6, amended: a rejected fetch (network or parse failure) sets
the error variable to the failure's own message when the thrown value is
an Error object, and to the generic "An error occurred" otherwise; the
rendered state is Error with that message whenever the message is
nonempty (always, in the non-Error case).  A thrown Error with an empty
message leaves the error variable set but renders the grid. -/
theorem rejected_error (s : AppState) (message : String) :
    (fetchMovies (.rejected (.errorVal message)) s).error = some message ∧
    (message ≠ "" →
      render (fetchMovies (.rejected (.errorVal message)) s) = .Error message) ∧
    (fetchMovies (.rejected .nonError) s).error = some "An error occurred" ∧
    render (fetchMovies (.rejected .nonError) s) = .Error "An error occurred" := by
  refine ⟨rfl, ?_, rfl, rfl⟩
  intro hm
  simp [render, fetchMovies, catchMessage, hm]

/-- Witness for the amended C6 at a concrete nonempty message. -/
theorem rejected_error_witness :
    ("boom" : String) ≠ "" ∧
    ((fetchMovies (.rejected (.errorVal "boom")) initialState).error = some "boom" ∧
      render (fetchMovies (.rejected (.errorVal "boom")) initialState) = .Error "boom" ∧
      (fetchMovies (.rejected .nonError) initialState).error = some "An error occurred" ∧
      render (fetchMovies (.rejected .nonError) initialState) = .Error "An error occurred") :=
  ⟨by decide, by
    obtain ⟨h1, h2, h3, h4⟩ := rejected_error initialState "boom"
    exact ⟨h1, h2 (by decide), h3, h4⟩⟩

/-- Claim C8: whatever the outcome of the fetch attempt, the `finally` block
leaves the loading flag false, so the system is never stuck in Loading
after the attempt completes. -/
theorem fetch_clears_loading (outcome : FetchOutcome) (s : AppState) :
    (fetchMovies outcome s).isLoading = false := by
  cases outcome <;> rfl

/-- Claim C10: `handleFilterChange` updates only the named field: setting the
search term preserves the sort key and setting the sort key preserves the
search term. -/
theorem handleFilterChange_frame (prev : FilterOptions) (value : String) :
    (handleFilterChange .searchTerm value prev).searchTerm = value ∧
    (handleFilterChange .searchTerm value prev).sortBy = prev.sortBy ∧
    (handleFilterChange .sortBy value prev).sortBy = value ∧
    (handleFilterChange .sortBy value prev).searchTerm = prev.searchTerm :=
  ⟨rfl, rfl, rfl, rfl⟩

/-- Claim C7: under the render branching, every reachable component state
shows exactly one of Loading, Error(message) and Ready(view): the three
are mutually exclusive and jointly exhaustive. -/
theorem lifecycle_exactly_one (s : AppState) (hs : Reachable s) :
    (render s = .Loading ∨ (∃ m, render s = .Error m) ∨
      (∃ v, render s = .Ready v)) ∧
    ¬(render s = .Loading ∧ ∃ m, render s = .Error m) ∧
    ¬(render s = .Loading ∧ ∃ v, render s = .Ready v) ∧
    ¬((∃ m, render s = .Error m) ∧ ∃ v, render s = .Ready v) := by
  refine ⟨?_, ?_, ?_, ?_⟩ <;> cases hv : render s <;> simp [hv]

/-- Witness for `C7` at the initial state. -/
theorem lifecycle_exactly_one_witness :
    Reachable initialState ∧
    ((render initialState = .Loading ∨
        (∃ m, render initialState = .Error m) ∨
        (∃ v, render initialState = .Ready v)) ∧
      ¬(render initialState = .Loading ∧ ∃ m, render initialState = .Error m) ∧
      ¬(render initialState = .Loading ∧ ∃ v, render initialState = .Ready v) ∧
      ¬((∃ m, render initialState = .Error m) ∧
        ∃ v, render initialState = .Ready v)) :=
  ⟨Reachable.init, lifecycle_exactly_one initialState Reachable.init⟩

/-- One recomputation of the view list, as the code performs it:
`movies.filter(...)` allocates a fresh array and `.sort(...)` then sorts
that fresh array in place; the component state is not written.  The pair
returned is (state after the computation, computed view list). -/
def runDerivation (s : AppState) : AppState × List Movie :=
  let copy := s.movies.filter fun movie => matchesSearch s.filters movie
  let sorted := copy.mergeSort (sortLe s.filters)
  (s, sorted)

/-- Claim C9: computing the view list leaves the component state — in
particular the raw movie list, its elements and their order — unchanged,
and recomputation from the unchanged state yields the same view list. -/
theorem derivation_frame (s : AppState) :
    (runDerivation s).1 = s ∧
    (runDerivation s).1.movies = s.movies ∧
    (runDerivation s).2 = filteredMovies s.movies s.filters ∧
    (runDerivation ((runDerivation s).1)).2 = (runDerivation s).2 :=
  ⟨rfl, rfl, rfl, rfl⟩

/-! ### Filtering (C1) -/

theorem containsList_iff (needle hay : List Char) :
    containsList needle hay = true ↔ needle <:+: hay := by
  induction hay with
  | nil => simp [containsList, List.isEmpty_iff]
  | cons c t ih => simp [containsList, ih, List.infix_cons_iff]

theorem includes_iff (hay needle : String) :
    includes hay needle = true ↔ needle.toList <:+: hay.toList :=
  containsList_iff _ _

/-- Claim C1: the derived view list contains exactly those movies of the raw
list whose lowercased title contains the lowercased search term as a
substring; an empty search term keeps every movie. -/
theorem filteredMovies_membership (movies : List Movie) (filters : FilterOptions) :
    (∀ m : Movie, m ∈ filteredMovies movies filters ↔
      m ∈ movies ∧
        (toLowerCase filters.searchTerm).toList <:+:
          (toLowerCase m.Title).toList) ∧
    (filters.searchTerm = "" → ∀ m ∈ movies, m ∈ filteredMovies movies filters) := by
  have hmem : ∀ m : Movie, m ∈ filteredMovies movies filters ↔
      m ∈ movies ∧
        (toLowerCase filters.searchTerm).toList <:+: (toLowerCase m.Title).toList := by
    intro m
    unfold filteredMovies sortMovies
    rw [List.mem_mergeSort, List.mem_filter, matchesSearch, includes_iff]
  refine ⟨hmem, ?_⟩
  intro hempty m hm
  refine (hmem m).mpr ⟨hm, ?_⟩
  rw [hempty]
  exact List.nil_infix

/-- Witness for `C1`: with an empty search term, a concrete movie is kept. -/
theorem filteredMovies_membership_witness :
    ((⟨"", "Title"⟩ : FilterOptions).searchTerm = "" ∧
      (⟨"Alpha", "2001", "100", none⟩ : Movie) ∈ [(⟨"Alpha", "2001", "100", none⟩ : Movie)]) ∧
    (⟨"Alpha", "2001", "100", none⟩ : Movie) ∈
      filteredMovies [⟨"Alpha", "2001", "100", none⟩] ⟨"", "Title"⟩ :=
  ⟨⟨rfl, by simp⟩,
    (filteredMovies_membership [⟨"Alpha", "2001", "100", none⟩] ⟨"", "Title"⟩).2
      rfl ⟨"Alpha", "2001", "100", none⟩ (by simp)⟩

/-! ### Sorting (C3, C4) -/

theorem localeCompare_nonpos (x y : String) :
    localeCompare x y ≤ 0 ↔ x ≤ y := by
  unfold localeCompare
  split_ifs with h1 h2
  · simp [le_of_lt h1]
  · simp [not_le.mpr h2]
  · have hxy : x = y := le_antisymm (le_of_not_lt h2) (le_of_not_lt h1)
    simp [hxy]

theorem sortLe_title (filters : FilterOptions) (h : filters.sortBy = "Title")
    (a b : Movie) : sortLe filters a b = true ↔ a.Title ≤ b.Title := by
  simp [sortLe, compareMovies, h, localeCompare_nonpos]

theorem sortLe_year (filters : FilterOptions) (h : filters.sortBy = "Year")
    (a b : Movie) :
    sortLe filters a b = true ↔ parseIntD b.Year ≤ parseIntD a.Year := by
  simp [sortLe, compareMovies, h, sub_nonpos]

/-- Claim C4: with sortBy = Title, sorting an already-sorted list again yields
the same element order: the Title sort is idempotent. -/
theorem title_sort_idempotent (filters : FilterOptions)
    (h : filters.sortBy = "Title") (l : List Movie) :
    sortMovies filters (sortMovies filters l) = sortMovies filters l := by
  unfold sortMovies
  apply List.mergeSort_of_sorted
  apply List.sorted_mergeSort
  · intro a b c hab hbc
    exact (sortLe_title filters h a c).mpr
      (le_trans ((sortLe_title filters h a b).mp hab)
        ((sortLe_title filters h b c).mp hbc))
  · intro a b
    simp only [Bool.or_eq_true, sortLe_title filters h]
    exact le_total a.Title b.Title

/-- Witness for `C4` on a concrete two-element list. -/
theorem title_sort_idempotent_witness :
    (⟨"", "Title"⟩ : FilterOptions).sortBy = "Title" ∧
    sortMovies ⟨"", "Title"⟩
        (sortMovies ⟨"", "Title"⟩
          [⟨"Zeta", "1999", "90", none⟩, ⟨"Alpha", "2001", "100", none⟩]) =
      sortMovies ⟨"", "Title"⟩
        [⟨"Zeta", "1999", "90", none⟩, ⟨"Alpha", "2001", "100", none⟩] :=
  ⟨rfl, title_sort_idempotent ⟨"", "Title"⟩ rfl
    [⟨"Zeta", "1999", "90", none⟩, ⟨"Alpha", "2001", "100", none⟩]⟩

/-- Claim C3: with sortBy = Year, on a list whose Year strings all parse, the
first element of the derived view list has a Year value at least that of
every element of the view list. -/
theorem year_sort_desc (movies : List Movie) (filters : FilterOptions)
    (hF : filters.sortBy = "Year")
    (hparse : ∀ m ∈ movies, (jsParseInt m.Year).isSome = true) :
    ∀ first : Movie, (filteredMovies movies filters).head? = some first →
      ∀ m ∈ filteredMovies movies filters,
        parseIntD m.Year ≤ parseIntD first.Year := by
  have hpw : (filteredMovies movies filters).Pairwise
      (fun a b => sortLe filters a b = true) := by
    unfold filteredMovies sortMovies
    apply List.sorted_mergeSort
    · intro a b c hab hbc
      exact (sortLe_year filters hF a c).mpr
        (le_trans ((sortLe_year filters hF b c).mp hbc)
          ((sortLe_year filters hF a b).mp hab))
    · intro a b
      simp only [Bool.or_eq_true, sortLe_year filters hF]
      exact le_total _ _
  intro first hfirst m hm
  cases hl : filteredMovies movies filters with
  | nil => rw [hl] at hm; cases hm
  | cons x xs =>
    rw [hl] at hfirst hm hpw
    simp only [List.head?_cons, Option.some.injEq] at hfirst
    rcases List.mem_cons.mp hm with rfl | hmem
    · rw [hfirst]
    · exact hfirst ▸ (sortLe_year filters hF x m).mp
        ((List.pairwise_cons.mp hpw).1 m hmem)

def movieA : Movie := ⟨"Alpha", "2001", "100", none⟩

def fYear : FilterOptions := ⟨"", "Year"⟩

theorem filteredMovies_single (m : Movie) (filters : FilterOptions)
    (h : matchesSearch filters m = true) :
    filteredMovies [m] filters = [m] := by
  simp [filteredMovies, sortMovies, h]

/-- Witness for `C3` on a concrete singleton list. -/
theorem year_sort_desc_witness :
    fYear.sortBy = "Year" ∧
    (∀ m ∈ [movieA], (jsParseInt m.Year).isSome = true) ∧
    (filteredMovies [movieA] fYear).head? = some movieA ∧
    (∀ m ∈ filteredMovies [movieA] fYear,
      parseIntD m.Year ≤ parseIntD movieA.Year) :=
  ⟨rfl, by decide,
    by rw [filteredMovies_single movieA fYear (by decide)]; rfl,
    year_sort_desc [movieA] fYear rfl (by decide) movieA
      (by rw [filteredMovies_single movieA fYear (by decide)]; rfl)⟩

end MovieApp
